import Mathlib

/-!
Verification of the disk-maker sampler and serializer
(repository Worlds-Collide/disk-maker, file src/diskmaker/create.py).

The Python code is embedded shallowly:

* machine floats are modelled by exact rational arithmetic (ℚ), except
  where a property hinges on IEEE-754 double rounding, which is then
  modelled explicitly by `roundQ` (round to nearest, ties to even,
  53-bit significand);
* the float power map `u ↦ u ** (alpha * 0.5)` of line 70 is not a
  rational function, so `calcSemis` takes it as an explicit parameter
  `rpow`; theorems quantify over `rpow` under hypotheses satisfied by
  the real power map, and concrete instances use exponents for which
  the power map is exactly rational (`alpha = 2` gives the identity,
  `alpha = -2` gives the reciprocal);
* `numpy.argsort` on line 84 followed by fancy indexing of the three
  parallel arrays with the same index array is modelled as a stable
  sort of the list of (semimajor axis, mass, label) triples by the
  semimajor axis, followed by projection to the three components;
* `numpy.random.uniform(lo, hi, size)` is a parameter `uniform` of
  `drawEIOoM`, constrained in theorems by its documented contract
  (length `size`, every sample in `[lo, hi)`);
* the scientific float formatting (`{:.6e}` and friends) of
  `writeBody` is a parameter `fmt`, since no claim depends on the
  digits it produces.

Python exceptions (ZeroDivisionError on line 78 when `nLarge == 0`,
ValueError from `numpy.linspace` on a negative count, IndexError from
single-element indexing) are modelled by `Except PyErr`.
-/

namespace DiskMaker

/-- Python `int()` applied to a real value: truncation toward zero. -/
def pyInt (q : ℚ) : ℤ := if 0 ≤ q then ⌊q⌋ else -⌊-q⌋

/-- Run-time errors the Python code can raise. -/
inductive PyErr where
  | zeroDivision
  | valueError
  | indexError
deriving DecidableEq

/-- Decidable equality of results, used to evaluate the model on
concrete inputs. -/
instance exceptDecEq {α β : Type} [DecidableEq α] [DecidableEq β] :
    DecidableEq (Except α β) :=
  fun a b =>
    match a, b with
    | .ok x, .ok y => decidable_of_iff (x = y) (by simp)
    | .error x, .error y => decidable_of_iff (x = y) (by simp)
    | .ok _, .error _ => isFalse (by simp)
    | .error _, .ok _ => isFalse (by simp)

/-- Single-element assignment `xs[i] = v` on a numpy array: a negative
index counts from the end, an index outside `[-len, len)` raises
IndexError. -/
def setIndex (xs : List Bool) (i : ℤ) (v : Bool) : Except PyErr (List Bool) :=
  let j : ℤ := if i < 0 then i + xs.length else i
  if 0 ≤ j ∧ j < xs.length then .ok (xs.set j.toNat v) else .error .indexError

/-- Resolution of one slice bound: a negative bound is shifted by the
length, then the result is clamped to `[0, len]`. -/
def sliceBound (n a : ℤ) : ℤ := if a < 0 then max 0 (a + n) else min a n

/-- Helper for `setSlice`: walk the list with a position counter and
overwrite the positions in `[a, b)`. -/
def setSliceAux (a b : ℤ) (v : Bool) : List Bool → ℤ → List Bool
  | [], _ => []
  | x :: rest, k => (if a ≤ k ∧ k < b then v else x) :: setSliceAux a b v rest (k + 1)

/-- Slice assignment `xs[a:b] = v` on a numpy array (never raises). -/
def setSlice (xs : List Bool) (a b : ℤ) (v : Bool) : List Bool :=
  setSliceAux (sliceBound xs.length a) (sliceBound xs.length b) v xs 0

/-- Boolean-mask selection `xs[mask]` on numpy arrays of equal length. -/
def maskSelect : List ℚ → List Bool → List ℚ
  | [], _ => []
  | _, [] => []
  | x :: xs, b :: bs => if b then x :: maskSelect xs bs else maskSelect xs bs

/-- Model of `numpy.linspace(0, 1, n)` for an integer count `n`: the
numpy of this era truncates a float count via `int()` (done by the
caller here) and raises ValueError on a negative count.  For `n ≥ 2`
the points are `k / (n - 1)`, `k = 0 … n-1`; the same formula also
covers `n = 1` (the single point `0.0`, since `0 / 0 = 0` in ℚ) and
`n = 0` (empty). -/
def linspace01 (n : ℤ) : Except PyErr (List ℚ) :=
  if n < 0 then .error .valueError
  else .ok ((List.range n.toNat).map fun k : ℕ => (k : ℚ) / ((n : ℚ) - 1))

/-- One body of the population: (semimajor axis, mass, type label). -/
abbrev Body := ℚ × ℚ × String

/-- Comparison of bodies by semimajor axis, the key of the final sort. -/
def bodyLe (p q : Body) : Prop := p.1 ≤ q.1

instance : DecidableRel bodyLe := fun p q => inferInstanceAs (Decidable (p.1 ≤ q.1))

instance : IsTotal Body bodyLe := ⟨fun p q => le_total p.1 q.1⟩

instance : IsTrans Body bodyLe := ⟨fun _ _ _ h h2 => le_trans h h2⟩

/-- Stable sort of the population by semimajor axis; models
`idx = np.argsort(...)` followed by indexing all three arrays by `idx`. -/
def sortBodies (l : List Body) : List Body := l.insertionSort bodyLe

/-- Arguments of `calcSemis` (lines 8 to 9 of create.py).  `nSmall` is a
Python int, every other argument a float. -/
structure DiskConfig where
  totalMass : ℚ
  smallMass : ℚ
  largeMass : ℚ
  nSmall : ℤ
  inner : ℚ
  outer : ℚ
  alpha : ℚ

/-- Line 46: `nLarge = int((totalMass - (nSmall * smallMass)) / largeMass)`. -/
def nLargeC (c : DiskConfig) : ℤ :=
  pyInt ((c.totalMass - c.nSmall * c.smallMass) / c.largeMass)

/-- Lines 51 to 52: the mass left over by the integer body counts. -/
def missingMassC (c : DiskConfig) : ℚ :=
  c.totalMass - c.nSmall * c.smallMass - c.largeMass * nLargeC c

/-- Line 61: `massMultiplier = largeMass / smallMass`. -/
def massMultiplier (c : DiskConfig) : ℚ := c.largeMass / c.smallMass

/-- Line 64: `power = alpha * 0.5`. -/
def powerC (c : DiskConfig) : ℚ := c.alpha * (1 / 2)

/-- The count handed to `numpy.linspace` on line 69:
`nSmall + ((largeMass * nLarge) / smallMass)`, truncated to an integer
by linspace. -/
def gridNum (c : DiskConfig) : ℤ :=
  pyInt ((c.nSmall : ℚ) + c.largeMass * (nLargeC c : ℚ) / c.smallMass)

/-- Line 69: `unidist = np.linspace(0, 1, nSmall + ((largeMass * nLarge) / smallMass))`. -/
def unidistE (c : DiskConfig) : Except PyErr (List ℚ) := linspace01 (gridNum c)

/-- Lines 70 to 72: `powdist = unidist ** power` followed by
`spacings = (powdist * span) + inner`, with the float power map
abstracted as `rpow`. -/
def spacingsDef (c : DiskConfig) (rpow : ℚ → ℚ) (unidist : List ℚ) : List ℚ :=
  (unidist.map rpow).map fun x => x * (c.outer - c.inner) + c.inner

/-- Lines 79 to 82, the masking loop: for each `i`,
`maskLarge[int((i*pos)+(0.5*pos))] = True` and
`maskSmall[int((i*pos)+(0.5*pos)-(massMultiplier/2)) :
int((i*pos)+(0.5*pos)+(massMultiplier/2))] = False`. -/
def maskLoop (pos mmHalf : ℚ) :
    List ℕ → List Bool → List Bool → Except PyErr (List Bool × List Bool)
  | [], mL, mS => .ok (mL, mS)
  | i :: rest, mL, mS =>
    (setIndex mL (pyInt ((i : ℚ) * pos + (1 / 2) * pos)) true).bind fun mL2 =>
      maskLoop pos mmHalf rest mL2
        (setSlice mS (pyInt ((i : ℚ) * pos + (1 / 2) * pos - mmHalf))
          (pyInt ((i : ℚ) * pos + (1 / 2) * pos + mmHalf)) false)

/-- Lines 46 to 87 of `calcSemis` up to (and excluding) the final sort:
the unsorted population `np.r_[spacings[maskLarge], spacings[maskSmall]]`
with its masses (line 86 to 87) and type labels (line 89,
`np.where(finalMass > smallMass, EM, PL)`), zipped into one list of
bodies.  The ZeroDivisionError of line 78 (`pos = len(unidist) / nLarge`
with `nLarge == 0`) is raised exactly where the source raises it: after
the grid is built and before the loop runs. -/
def calcSemisPre (c : DiskConfig) (rpow : ℚ → ℚ) : Except PyErr (List Body) :=
  match unidistE c with
  | .error e => .error e
  | .ok unidist =>
    let spacings := spacingsDef c rpow unidist
    if nLargeC c = 0 then .error .zeroDivision
    else
      let pos : ℚ := (unidist.length : ℚ) / (nLargeC c : ℚ)
      match maskLoop pos (massMultiplier c / 2) (List.range (nLargeC c).toNat)
          (List.replicate spacings.length false) (List.replicate spacings.length true) with
      | .error e => .error e
      | .ok (mL, mS) =>
        let largeSemi := maskSelect spacings mL
        let smallSemi := maskSelect spacings mS
        let semisPre := largeSemi ++ smallSemi
        let massesPre := largeSemi.map (fun _ => c.largeMass) ++
          smallSemi.map (fun _ => c.smallMass)
        let typesPre := massesPre.map fun m => if c.smallMass < m then "EM" else "PL"
        .ok (semisPre.zip (massesPre.zip typesPre))

/-- Result of `calcSemis`: the three parallel arrays it returns. -/
structure DiskOut where
  semis : List ℚ
  masses : List ℚ
  types : List String
deriving DecidableEq

/-- Lines 46 to 114 of create.py: the full sampler.  Lines 84 to 89 sort
the population by semimajor axis (stably, see `sortBodies`) and return
the three parallel arrays `finalSemi[idx]`, `finalMass[idx]`,
`bodyType[idx]`. -/
def calcSemis (c : DiskConfig) (rpow : ℚ → ℚ) : Except PyErr DiskOut :=
  match calcSemisPre c rpow with
  | .error e => .error e
  | .ok pre =>
    let sorted := sortBodies pre
    .ok ⟨sorted.map (fun p => p.1), sorted.map (fun p => p.2.1),
      sorted.map (fun p => p.2.2)⟩

/-- The five orbital-element arrays returned by `drawEIOoM`. -/
structure Elements where
  ecc : List ℚ
  inc : List ℚ
  littleOm : List ℚ
  bigOm : List ℚ
  meananom : List ℚ
deriving DecidableEq

/-- Lines 147 to 173: `drawEIOoM(size=1, **kwargs)`.  Each of the five
elements is taken verbatim from `kwargs` when the key is present and
otherwise drawn as `np.random.uniform(lo, hi, size)`; the random source
is the parameter `uniform`.  The keyword dictionary is modelled as an
association list. -/
def drawEIOoM (size : ℕ) (kwargs : List (String × List ℚ))
    (uniform : ℚ → ℚ → ℕ → List ℚ) : Elements where
  ecc := (kwargs.lookup "ecc").getD (uniform 0 (1 / 100) size)
  inc := (kwargs.lookup "inc").getD (uniform 0 (1 / 2) size)
  littleOm := (kwargs.lookup "littleOm").getD (uniform 0 360 size)
  bigOm := (kwargs.lookup "bigOm").getD (uniform 0 360 size)
  meananom := (kwargs.lookup "meananom").getD (uniform 0 360 size)

/-- Lines 178 to 189: the fixed big.in header. -/
def writeHead : String :=
  ")O+_06 Big-body initial data  (WARNING: Do not delete this line!!)\n) Lines beginning with `)\x27 are ignored.\n)---------------------------------------------------\nstyle (Cartesian, Asteroidal, Cometary) = Asteroidal\nepoch (in days) = 0.0\n)---------------------------------------------------------------------\n"

/-- Python `"{:04}".format(i)`: pad with zeros to a minimum width of 4;
wider numbers are printed in full, never truncated. -/
def pad4 (i : ℕ) : String :=
  let s := toString i
  if s.length < 4 then String.mk (List.replicate (4 - s.length) '0') ++ s.data.asString
  else s

/-- Lines 191 to 198: one two-line body record.  `fmt p q` stands for
the float formatting `"{:.pe}".format(q)`. -/
def writeBody (fmt : ℕ → ℚ → String) (bodyname : String)
    (mass semimajor ecc inc littleOm bigOm meananom : ℚ) : String :=
  " " ++ bodyname ++ " m=" ++ fmt 6 mass ++ " r=0.1 d=3\n  " ++
    fmt 6 semimajor ++ " " ++ fmt 7 ecc ++ " " ++ fmt 4 inc ++ " " ++
    fmt 4 littleOm ++ " " ++ fmt 4 bigOm ++ " " ++ fmt 4 meananom ++
    " 0.0 0.0 0.0\n"

/-- Line 212: `earthmass2sunmass = 3.003467e-6`. -/
def earthmass2sunmass : ℚ := 3003467 / 1000000000000

/-- Python `s[:-1]`: remove the last character. -/
def strDropLast (s : String) : String := s.data.dropLast.asString

/-- Result of the serializer: whether the too-many-bodies message of
line 208 was logged, and the returned string. -/
structure BiginOut where
  tooManyLogged : Bool
  output : String

/-- Line 214 to 216: the record of body `i`. -/
def bodyLine (fmt : ℕ → ℚ → String) (finalSemi finalMass : List ℚ)
    (bodyType : List String) (el : Elements) (i : ℕ) : String :=
  writeBody fmt (bodyType.getD i "" ++ pad4 i)
    (finalMass.getD i 0 * earthmass2sunmass) (finalSemi.getD i 0)
    (el.ecc.getD i 0) (el.inc.getD i 0) (el.littleOm.getD i 0)
    (el.bigOm.getD i 0) (el.meananom.getD i 0)

/-- Lines 206 to 219 of `createBigin`, the serialization of a sampled
population: when `nbodies > 9999` the code only calls
`logger.error(...)` and carries on; the serialized string is built and
returned in every case, with the final newline removed (line 218). -/
def createBiginFromPop (fmt : ℕ → ℚ → String) (finalSemi finalMass : List ℚ)
    (bodyType : List String) (el : Elements) : BiginOut :=
  let nbodies := finalSemi.length
  let outstr := writeHead ++
    String.join ((List.range nbodies).map (bodyLine fmt finalSemi finalMass bodyType el))
  ⟨decide (9999 < nbodies), strDropLast outstr⟩

/-- Lines 200 to 219: the full `createBigin`, composing the sampler,
the element drawer (called with `size=nbodies` and no overrides) and
the serializer. -/
def createBigin (c : DiskConfig) (rpow : ℚ → ℚ)
    (uniform : ℚ → ℚ → ℕ → List ℚ) (fmt : ℕ → ℚ → String) :
    Except PyErr BiginOut :=
  match calcSemis c rpow with
  | .error e => .error e
  | .ok p =>
    .ok (createBiginFromPop fmt p.semis p.masses p.types
      (drawEIOoM p.semis.length [] uniform))

/-- Round a positive rational to the nearest IEEE-754 double (53-bit
significand, round to nearest, ties to even; overflow and subnormals do
not arise at the magnitudes used here). -/
def roundPos (q : ℚ) : ℚ :=
  let e : ℤ := Int.log 2 q
  let x : ℚ := q * 2 ^ ((52 : ℤ) - e)
  let n : ℤ := ⌊x⌋
  let m : ℤ :=
    if x - n < 1 / 2 then n
    else if 1 / 2 < x - n then n + 1
    else if n % 2 = 0 then n else n + 1
  (m : ℚ) * 2 ^ (e - 52)

/-- Round a rational to the nearest IEEE-754 double. -/
def roundQ (q : ℚ) : ℚ :=
  if q = 0 then 0 else if q < 0 then -roundPos (-q) else roundPos q

/-- IEEE double multiplication: round the exact product. -/
def fmul (a b : ℚ) : ℚ := roundQ (a * b)

/-- IEEE double subtraction: round the exact difference. -/
def fsub (a b : ℚ) : ℚ := roundQ (a - b)

/-- IEEE double division: round the exact quotient. -/
def fdiv (a b : ℚ) : ℚ := roundQ (a / b)

/-- Line 46 under genuine IEEE double semantics:
`int((totalMass - (nSmall * smallMass)) / largeMass)`, the arguments
being already-rounded doubles. -/
def nLargeFloat (totalMass smallMass largeMass : ℚ) (nSmall : ℤ) : ℤ :=
  pyInt (fdiv (fsub totalMass (fmul (nSmall : ℚ) smallMass)) largeMass)

/-- The power map for `alpha = 2`: `u ** 1` is exactly the identity. -/
def idPow : ℚ → ℚ := fun u => u

/-- The power map for `alpha = -2`: `u ** (-1)` is exactly the
reciprocal for `u ≠ 0` (numpy maps `0.0 ** -1.0` to `inf`, which also
lies outside every radius bound; the ℚ model maps it to `0`, and no
statement below looks at the image of `0` under this map). -/
def invPow : ℚ → ℚ := fun u => u⁻¹

/-- A concrete admissible random source: `uniform lo hi n` returns `n`
copies of `lo`. -/
def uniZero : ℚ → ℚ → ℕ → List ℚ := fun lo _ n => List.replicate n lo

/-- The scenario of the specification: totalMass 5.0, smallMass 0.01,
largeMass 0.1, nSmall 260, inner 0.2, outer 4.0, alpha 1.5. -/
def scenarioCfg : DiskConfig := ⟨5, 1 / 100, 1 / 10, 260, 1 / 5, 4, 3 / 2⟩

/-- A small fully valid configuration with `nLarge = 1` and `alpha = 2`
(so that the power map is exactly `idPow`), used by witnesses. -/
def smallCfg : DiskConfig := ⟨4, 1, 2, 2, 1, 2, 2⟩

/-- The sorted output of `calcSemis smallCfg idPow`. -/
def smallOut : DiskOut := ⟨[1, 5 / 3, 2], [1, 2, 1], ["PL", "EM", "PL"]⟩

/-- A valid configuration whose mass budget is negative:
`(1 - 4·1)/2 = -3/2`, so line 46 truncates to `-1` while the floor is
`-2`; the masking loop does not run and the code returns two small
bodies. -/
def c2cex : DiskConfig := ⟨1, 1, 2, 4, 1, 2, 2⟩

/-- The output of `calcSemis c2cex idPow`. -/
def c2out : DiskOut := ⟨[1, 2], [1, 1], ["PL", "PL"]⟩

/-- A valid configuration with `alpha = -2` (negative exponent): the
grid point `2/3` is mapped to radius `5/2`, beyond `outer = 2`. -/
def c4cex : DiskConfig := ⟨4, 1, 2, 2, 1, 2, -2⟩

/-- The output of `calcSemis c4cex invPow`. -/
def c4out : DiskOut := ⟨[1, 2, 5 / 2], [1, 1, 2], ["PL", "PL", "EM"]⟩

/-- An invalid configuration (negative `nSmall`, inverted radial
bounds) on which `calcSemis` nevertheless returns normally. -/
def c5cex : DiskConfig := ⟨1, 1, 2, -5, 5, 3, 2⟩

/-- The output of `calcSemis c5cex idPow`. -/
def c5out : DiskOut := ⟨[5], [2], ["EM"]⟩

/-- An invalid configuration with `nSmall = -10` whose grid count
`nSmall + nLarge * massMultiplier = -10 + 5 * 2` is zero: the masking
loop indexes an empty array and raises IndexError. -/
def c5bcex : DiskConfig := ⟨1 / 2, 1, 2, -10, 1, 2, 2⟩

/-- A configuration whose large-body count is zero (`nSmall` small
bodies exhaust the total mass): line 78 divides by `nLarge`. -/
def c6cfg : DiskConfig := ⟨2, 1 / 100, 1 / 10, 200, 1 / 5, 4, 3 / 2⟩

/-- A valid configuration with non-integer `massMultiplier = 3/2` and
`nLarge = 1`: the linspace count `1 + 3/2·1 = 5/2` is truncated to 2. -/
def c7cex : DiskConfig := ⟨5, 2, 3, 1, 1, 2, 2⟩

/-- A trivial formatter standing in for the float formatting of
`writeBody`. -/
def cfmt : ℕ → ℚ → String := fun _ _ => "0"

/-- Concrete orbital elements for a population of 10000 bodies. -/
def bigEl : Elements :=
  ⟨List.replicate 10000 0, List.replicate 10000 0, List.replicate 10000 0,
    List.replicate 10000 0, List.replicate 10000 0⟩

end DiskMaker

namespace DiskMaker

theorem pyInt_eq_floor {q : ℚ} (h : 0 ≤ q) : pyInt q = ⌊q⌋ := if_pos h

theorem pyInt_intCast (z : ℤ) : pyInt (z : ℚ) = z := by
  unfold pyInt
  split
  · exact Int.floor_intCast z
  · rw [show (-(z : ℚ)) = ((-z : ℤ) : ℚ) by push_cast; ring, Int.floor_intCast]
    ring

theorem pyInt_eval {q : ℚ} {z : ℤ} (h0 : 0 ≤ q) (h1 : (z : ℚ) ≤ q)
    (h2 : q < z + 1) : pyInt q = z := by
  rw [pyInt_eq_floor h0, Int.floor_eq_iff]
  exact ⟨h1, h2⟩

theorem pyInt_eval_neg (z : ℤ) {q : ℚ} (h0 : q < 0) (h1 : (z : ℚ) ≤ -q)
    (h2 : -q < z + 1) : pyInt q = -z := by
  rw [pyInt, if_neg (not_le.mpr h0)]
  congr 1
  rw [Int.floor_eq_iff]
  exact ⟨h1, h2⟩

theorem lookup_cons_of_ne {β : Type} {key name : String} (hne : name ≠ key)
    (b : β) (l : List (String × β)) :
    List.lookup name ((key, b) :: l) = List.lookup name l := by
  simp [List.lookup, beq_eq_false_iff_ne.mpr hne]

/-- C10: for every count and every overrides mapping, keys other than
the five recognized element names (ecc, inc, littleOm, bigOm, meananom)
are silently ignored by drawEIOoM: no error is raised and the result is
exactly the one obtained without the unrecognized key. -/
theorem drawEIOoM_ignores_unknown_keys (size : ℕ) (key : String)
    (arr : List ℚ) (kwargs : List (String × List ℚ))
    (uniform : ℚ → ℚ → ℕ → List ℚ)
    (h : key ∉ ["ecc", "inc", "littleOm", "bigOm", "meananom"]) :
    drawEIOoM size ((key, arr) :: kwargs) uniform =
      drawEIOoM size kwargs uniform := by
  simp only [List.mem_cons, List.mem_singleton, not_or] at h
  obtain ⟨h1, h2, h3, h4, h5, -⟩ := h
  unfold drawEIOoM
  rw [lookup_cons_of_ne (Ne.symm h1), lookup_cons_of_ne (Ne.symm h2),
    lookup_cons_of_ne (Ne.symm h3), lookup_cons_of_ne (Ne.symm h4),
    lookup_cons_of_ne (Ne.symm h5)]

/-- Witness for C10 at a concrete input: the key "radius" is not one of
the five element names and supplying it changes nothing. -/
theorem drawEIOoM_ignores_unknown_keys_witness :
    "radius" ∉ ["ecc", "inc", "littleOm", "bigOm", "meananom"] ∧
      drawEIOoM 1 [("radius", [7])] uniZero = drawEIOoM 1 [] uniZero := by
  refine ⟨by simp, drawEIOoM_ignores_unknown_keys 1 "radius" [7] [] uniZero (by simp)⟩

/-- C8: for every count and overrides mapping, an overridden element is
returned exactly equal to the supplied array, and every entry of a
non-overridden element lies in its default range (eccentricity in
[0, 0.01), inclination in [0, 0.5), the three angles in [0, 360)),
assuming the random source meets the documented contract of
numpy.random.uniform. -/
theorem drawEIOoM_override_fidelity (size : ℕ)
    (kwargs : List (String × List ℚ)) (uniform : ℚ → ℚ → ℕ → List ℚ)
    (hu : ∀ lo hi n, lo < hi →
      (uniform lo hi n).length = n ∧ ∀ x ∈ uniform lo hi n, lo ≤ x ∧ x < hi) :
    ((∀ v, kwargs.lookup "ecc" = some v → (drawEIOoM size kwargs uniform).ecc = v) ∧
      (kwargs.lookup "ecc" = none →
        ∀ x ∈ (drawEIOoM size kwargs uniform).ecc, 0 ≤ x ∧ x < 1 / 100)) ∧
    ((∀ v, kwargs.lookup "inc" = some v → (drawEIOoM size kwargs uniform).inc = v) ∧
      (kwargs.lookup "inc" = none →
        ∀ x ∈ (drawEIOoM size kwargs uniform).inc, 0 ≤ x ∧ x < 1 / 2)) ∧
    ((∀ v, kwargs.lookup "littleOm" = some v →
        (drawEIOoM size kwargs uniform).littleOm = v) ∧
      (kwargs.lookup "littleOm" = none →
        ∀ x ∈ (drawEIOoM size kwargs uniform).littleOm, 0 ≤ x ∧ x < 360)) ∧
    ((∀ v, kwargs.lookup "bigOm" = some v → (drawEIOoM size kwargs uniform).bigOm = v) ∧
      (kwargs.lookup "bigOm" = none →
        ∀ x ∈ (drawEIOoM size kwargs uniform).bigOm, 0 ≤ x ∧ x < 360)) ∧
    ((∀ v, kwargs.lookup "meananom" = some v →
        (drawEIOoM size kwargs uniform).meananom = v) ∧
      (kwargs.lookup "meananom" = none →
        ∀ x ∈ (drawEIOoM size kwargs uniform).meananom, 0 ≤ x ∧ x < 360)) := by
  unfold drawEIOoM
  refine ⟨⟨fun v hv => ?_, fun hv => ?_⟩, ⟨fun v hv => ?_, fun hv => ?_⟩,
    ⟨fun v hv => ?_, fun hv => ?_⟩, ⟨fun v hv => ?_, fun hv => ?_⟩,
    ⟨fun v hv => ?_, fun hv => ?_⟩⟩ <;>
    simp only [hv, Option.getD_some, Option.getD_none]
  · exact (hu 0 (1 / 100) size (by norm_num)).2
  · exact (hu 0 (1 / 2) size (by norm_num)).2
  · exact (hu 0 360 size (by norm_num)).2
  · exact (hu 0 360 size (by norm_num)).2
  · exact (hu 0 360 size (by norm_num)).2

/-- Witness for C8 at a concrete input: with the inclination overridden
by [9, 9] and the admissible source uniZero, the inclination is
returned verbatim and the eccentricities stay in [0, 0.01). -/
theorem drawEIOoM_override_fidelity_witness :
    (drawEIOoM 2 [("inc", [9, 9])] uniZero).inc = [9, 9] ∧
      ∀ x ∈ (drawEIOoM 2 [("inc", [9, 9])] uniZero).ecc, 0 ≤ x ∧ x < 1 / 100 := by
  have hu : ∀ lo hi n, lo < hi →
      (uniZero lo hi n).length = n ∧ ∀ x ∈ uniZero lo hi n, lo ≤ x ∧ x < hi :=
    fun lo hi n hlt =>
      ⟨List.length_replicate n lo,
       fun x hx => by rw [List.eq_of_mem_replicate hx]; exact ⟨le_refl lo, hlt⟩⟩
  have h := drawEIOoM_override_fidelity 2 [("inc", [9, 9])] uniZero hu
  exact ⟨h.2.1.1 [9, 9] (by simp [List.lookup]), h.1.2 (by simp [List.lookup])⟩

end DiskMaker

namespace DiskMaker

theorem exceptBind_ok {α β : Type} (x : α) (f : α → Except PyErr β) :
    (Except.ok x).bind f = f x := rfl

theorem exceptBind_err {α β : Type} (e : PyErr) (f : α → Except PyErr β) :
    (Except.error e : Except PyErr α).bind f = .error e := rfl

theorem maskLoop_nil (pos mmHalf : ℚ) (mL mS : List Bool) :
    maskLoop pos mmHalf [] mL mS = .ok (mL, mS) := by
  rw [maskLoop]

theorem maskLoop_cons_ok (pos mmHalf : ℚ) (i : ℕ) (rest : List ℕ)
    (mL mS mL2 : List Bool) (j a b : ℤ)
    (hj : pyInt ((i : ℚ) * pos + (1 / 2) * pos) = j)
    (ha : pyInt ((i : ℚ) * pos + (1 / 2) * pos - mmHalf) = a)
    (hb : pyInt ((i : ℚ) * pos + (1 / 2) * pos + mmHalf) = b)
    (hset : setIndex mL j true = .ok mL2) :
    maskLoop pos mmHalf (i :: rest) mL mS =
      maskLoop pos mmHalf rest mL2 (setSlice mS a b false) := by
  rw [maskLoop, hj, ha, hb, hset, exceptBind_ok]

theorem calcSemisPre_zeroDiv (c : DiskConfig) (rpow : ℚ → ℚ)
    (unidist : List ℚ) (hu : unidistE c = .ok unidist)
    (hn : nLargeC c = 0) : calcSemisPre c rpow = .error .zeroDivision := by
  rw [calcSemisPre.eq_def, hu]
  simp only [hn, if_pos]

theorem calcSemisPre_eval (c : DiskConfig) (rpow : ℚ → ℚ)
    (unidist sp : List ℚ) (n : ℤ) (mL mS : List Bool)
    (largeS smallS : List ℚ)
    (hu : unidistE c = .ok unidist)
    (hn : nLargeC c = n) (hn0 : ¬n = 0)
    (hsp : spacingsDef c rpow unidist = sp)
    (hloop : maskLoop ((unidist.length : ℚ) / (n : ℚ)) (massMultiplier c / 2)
        (List.range n.toNat)
        (List.replicate sp.length false) (List.replicate sp.length true) =
        .ok (mL, mS))
    (hL : maskSelect sp mL = largeS)
    (hS : maskSelect sp mS = smallS) :
    calcSemisPre c rpow = .ok ((largeS ++ smallS).zip
      ((largeS.map (fun _ => c.largeMass) ++ smallS.map (fun _ => c.smallMass)).zip
        ((largeS.map (fun _ => c.largeMass) ++
          smallS.map (fun _ => c.smallMass)).map
            fun m => if c.smallMass < m then "EM" else "PL"))) := by
  rw [calcSemisPre.eq_def, hu]
  simp only [hn, hsp, if_neg hn0, hloop, hL, hS]

theorem calcSemis_of_pre (c : DiskConfig) (rpow : ℚ → ℚ) (pre : List Body)
    (hpre : calcSemisPre c rpow = .ok pre) :
    calcSemis c rpow = .ok ⟨(sortBodies pre).map (fun p => p.1),
      (sortBodies pre).map (fun p => p.2.1),
      (sortBodies pre).map (fun p => p.2.2)⟩ := by
  rw [calcSemis.eq_def, hpre]

theorem calcSemis_of_pre_err (c : DiskConfig) (rpow : ℚ → ℚ) (e : PyErr)
    (hpre : calcSemisPre c rpow = .error e) :
    calcSemis c rpow = .error e := by
  rw [calcSemis.eq_def, hpre]

theorem maskLoop_cons_err (pos mmHalf : ℚ) (i : ℕ) (rest : List ℕ)
    (mL mS : List Bool) (j : ℤ) (e : PyErr)
    (hj : pyInt ((i : ℚ) * pos + (1 / 2) * pos) = j)
    (hset : setIndex mL j true = .error e) :
    maskLoop pos mmHalf (i :: rest) mL mS = .error e := by
  rw [maskLoop, hj, hset, exceptBind_err]

theorem calcSemisPre_loop_err (c : DiskConfig) (rpow : ℚ → ℚ)
    (unidist sp : List ℚ) (n : ℤ) (e : PyErr)
    (hu : unidistE c = .ok unidist)
    (hn : nLargeC c = n) (hn0 : ¬n = 0)
    (hsp : spacingsDef c rpow unidist = sp)
    (hloop : maskLoop ((unidist.length : ℚ) / (n : ℚ)) (massMultiplier c / 2)
        (List.range n.toNat)
        (List.replicate sp.length false) (List.replicate sp.length true) =
        .error e) :
    calcSemisPre c rpow = .error e := by
  rw [calcSemisPre.eq_def, hu]
  simp only [hn, hsp, if_neg hn0, hloop]

end DiskMaker

namespace DiskMaker

theorem nLargeC_smallCfg : nLargeC smallCfg = 1 :=
  pyInt_eval (by norm_num [smallCfg]) (by norm_num [smallCfg]) (by norm_num [smallCfg])

theorem gridNum_smallCfg : gridNum smallCfg = 4 := by
  rw [gridNum, nLargeC_smallCfg]
  exact pyInt_eval (by norm_num [smallCfg]) (by norm_num [smallCfg]) (by norm_num [smallCfg])

theorem unidistE_smallCfg : unidistE smallCfg = .ok [0, 1 / 3, 2 / 3, 1] := by
  rw [unidistE, gridNum_smallCfg, linspace01, if_neg (by norm_num)]
  rw [show ((4 : ℤ)).toNat = 4 from rfl]
  norm_num [List.range_succ]

theorem hloopNum_smallCfg :
    maskLoop 4 1 [0] [false, false, false, false] [true, true, true, true] =
      .ok ([false, false, true, false], [true, false, false, true]) := by
  have hj : pyInt ((((0 : ℕ)) : ℚ) * 4 + (1 / 2) * 4) = 2 :=
    pyInt_eval (by norm_num) (by norm_num) (by norm_num)
  have ha : pyInt ((((0 : ℕ)) : ℚ) * 4 + (1 / 2) * 4 - 1) = 1 :=
    pyInt_eval (by norm_num) (by norm_num) (by norm_num)
  have hb : pyInt ((((0 : ℕ)) : ℚ) * 4 + (1 / 2) * 4 + 1) = 3 :=
    pyInt_eval (by norm_num) (by norm_num) (by norm_num)
  have hset : setIndex [false, false, false, false] 2 true =
      .ok [false, false, true, false] := by decide
  have step := maskLoop_cons_ok 4 1 0 [] [false, false, false, false]
    [true, true, true, true] [false, false, true, false] 2 1 3 hj ha hb hset
  have hsl : setSlice [true, true, true, true] 1 3 false =
      [true, false, false, true] := by decide
  rw [hsl] at step
  exact step.trans (maskLoop_nil 4 1 _ _)

theorem calcSemisPre_smallCfg :
    calcSemisPre smallCfg idPow =
      .ok [(5 / 3, (2, "EM")), (1, (1, "PL")), (2, (1, "PL"))] := by
  have h := calcSemisPre_eval smallCfg idPow [0, 1 / 3, 2 / 3, 1]
    [1, 4 / 3, 5 / 3, 2] 1 [false, false, true, false] [true, false, false, true]
    [5 / 3] [1, 2] unidistE_smallCfg nLargeC_smallCfg (by norm_num)
    (by norm_num [spacingsDef, idPow, smallCfg]) ?_ ?_ ?_
  · refine h.trans ?_
    norm_num [smallCfg]
  · have e1 : ((List.length [(0 : ℚ), 1 / 3, 2 / 3, 1] : ℕ) : ℚ) / ((1 : ℤ) : ℚ) = 4 := by
      norm_num
    have e2 : massMultiplier smallCfg / 2 = 1 := by norm_num [massMultiplier, smallCfg]
    have e3 : List.range (1 : ℤ).toNat = [0] := rfl
    have e4 : List.replicate (List.length [(1 : ℚ), 4 / 3, 5 / 3, 2]) false =
        [false, false, false, false] := rfl
    have e5 : List.replicate (List.length [(1 : ℚ), 4 / 3, 5 / 3, 2]) true =
        [true, true, true, true] := rfl
    simp only [e1, e2, e3, e4, e5]
    exact hloopNum_smallCfg
  · simp [maskSelect]
  · simp [maskSelect]

theorem sortBodies_smallCfg :
    sortBodies [(5 / 3, (2, "EM")), (1, (1, "PL")), (2, (1, "PL"))] =
      [(1, (1, "PL")), (5 / 3, (2, "EM")), (2, (1, "PL"))] := by
  norm_num [sortBodies, List.insertionSort, List.orderedInsert, bodyLe]

theorem calcSemis_smallCfg : calcSemis smallCfg idPow = .ok smallOut := by
  have h := calcSemis_of_pre smallCfg idPow _ calcSemisPre_smallCfg
  rw [sortBodies_smallCfg] at h
  simp only [List.map] at h
  exact h

end DiskMaker

namespace DiskMaker

theorem nLargeC_c2cex : nLargeC c2cex = -1 :=
  pyInt_eval_neg 1 (by norm_num [c2cex]) (by norm_num [c2cex]) (by norm_num [c2cex])

theorem gridNum_c2cex : gridNum c2cex = 2 := by
  rw [gridNum, nLargeC_c2cex]
  exact pyInt_eval (by norm_num [c2cex]) (by norm_num [c2cex]) (by norm_num [c2cex])

theorem unidistE_c2cex : unidistE c2cex = .ok [0, 1] := by
  rw [unidistE, gridNum_c2cex, linspace01, if_neg (by norm_num)]
  rw [show ((2 : ℤ)).toNat = 2 from rfl]
  norm_num [List.range_succ]

theorem calcSemisPre_c2cex :
    calcSemisPre c2cex idPow = .ok [(1, (1, "PL")), (2, (1, "PL"))] := by
  have h := calcSemisPre_eval c2cex idPow [0, 1] [1, 2] (-1)
    [false, false] [true, true] [] [1, 2] unidistE_c2cex nLargeC_c2cex (by norm_num)
    (by norm_num [spacingsDef, idPow, c2cex]) ?_ ?_ ?_
  · refine h.trans ?_
    norm_num [c2cex]
  · have e3 : List.range (-1 : ℤ).toNat = [] := rfl
    have e4 : List.replicate (List.length [(1 : ℚ), 2]) false = [false, false] := rfl
    have e5 : List.replicate (List.length [(1 : ℚ), 2]) true = [true, true] := rfl
    simp only [e3, e4, e5]
    exact maskLoop_nil _ _ _ _
  · simp [maskSelect]
  · simp [maskSelect]

theorem calcSemis_c2cex : calcSemis c2cex idPow = .ok c2out := by
  have h := calcSemis_of_pre c2cex idPow _ calcSemisPre_c2cex
  rw [show sortBodies [(1, (1, "PL")), (2, (1, "PL"))] = [(1, (1, "PL")), (2, (1, "PL"))]
    from by norm_num [sortBodies, List.insertionSort, List.orderedInsert, bodyLe]] at h
  simp only [List.map] at h
  exact h

theorem nLargeC_c4cex : nLargeC c4cex = 1 :=
  pyInt_eval (by norm_num [c4cex]) (by norm_num [c4cex]) (by norm_num [c4cex])

theorem gridNum_c4cex : gridNum c4cex = 4 := by
  rw [gridNum, nLargeC_c4cex]
  exact pyInt_eval (by norm_num [c4cex]) (by norm_num [c4cex]) (by norm_num [c4cex])

theorem unidistE_c4cex : unidistE c4cex = .ok [0, 1 / 3, 2 / 3, 1] := by
  rw [unidistE, gridNum_c4cex, linspace01, if_neg (by norm_num)]
  rw [show ((4 : ℤ)).toNat = 4 from rfl]
  norm_num [List.range_succ]

theorem calcSemisPre_c4cex :
    calcSemisPre c4cex invPow =
      .ok [(5 / 2, (2, "EM")), (1, (1, "PL")), (2, (1, "PL"))] := by
  have h := calcSemisPre_eval c4cex invPow [0, 1 / 3, 2 / 3, 1]
    [1, 4, 5 / 2, 2] 1 [false, false, true, false] [true, false, false, true]
    [5 / 2] [1, 2] unidistE_c4cex nLargeC_c4cex (by norm_num)
    (by norm_num [spacingsDef, invPow, c4cex]) ?_ ?_ ?_
  · refine h.trans ?_
    norm_num [c4cex]
  · have e1 : ((List.length [(0 : ℚ), 1 / 3, 2 / 3, 1] : ℕ) : ℚ) / ((1 : ℤ) : ℚ) = 4 := by
      norm_num
    have e2 : massMultiplier c4cex / 2 = 1 := by norm_num [massMultiplier, c4cex]
    have e3 : List.range (1 : ℤ).toNat = [0] := rfl
    have e4 : List.replicate (List.length [(1 : ℚ), 4, 5 / 2, 2]) false =
        [false, false, false, false] := rfl
    have e5 : List.replicate (List.length [(1 : ℚ), 4, 5 / 2, 2]) true =
        [true, true, true, true] := rfl
    simp only [e1, e2, e3, e4, e5]
    exact hloopNum_smallCfg
  · simp [maskSelect]
  · simp [maskSelect]

theorem calcSemis_c4cex : calcSemis c4cex invPow = .ok c4out := by
  have h := calcSemis_of_pre c4cex invPow _ calcSemisPre_c4cex
  rw [show sortBodies [(5 / 2, (2, "EM")), (1, (1, "PL")), (2, (1, "PL"))] =
      [(1, (1, "PL")), (2, (1, "PL")), (5 / 2, (2, "EM"))]
    from by norm_num [sortBodies, List.insertionSort, List.orderedInsert, bodyLe]] at h
  simp only [List.map] at h
  exact h

theorem nLargeC_c5cex : nLargeC c5cex = 3 :=
  pyInt_eval (by norm_num [c5cex]) (by norm_num [c5cex]) (by norm_num [c5cex])

theorem gridNum_c5cex : gridNum c5cex = 1 := by
  rw [gridNum, nLargeC_c5cex]
  exact pyInt_eval (by norm_num [c5cex]) (by norm_num [c5cex]) (by norm_num [c5cex])

theorem unidistE_c5cex : unidistE c5cex = .ok [0] := by
  rw [unidistE, gridNum_c5cex, linspace01, if_neg (by norm_num)]
  rw [show ((1 : ℤ)).toNat = 1 from rfl]
  norm_num [List.range_succ]

theorem hloopNum_c5cex :
    maskLoop (1 / 3) 1 [0, 1, 2] [false] [true] = .ok ([true], [false]) := by
  have hj0 : pyInt ((((0 : ℕ)) : ℚ) * (1 / 3) + (1 / 2) * (1 / 3)) = 0 :=
    pyInt_eval (by norm_num) (by norm_num) (by norm_num)
  have ha0 : pyInt ((((0 : ℕ)) : ℚ) * (1 / 3) + (1 / 2) * (1 / 3) - 1) = 0 :=
    (pyInt_eval_neg 0 (by norm_num) (by norm_num) (by norm_num)).trans (by norm_num)
  have hb0 : pyInt ((((0 : ℕ)) : ℚ) * (1 / 3) + (1 / 2) * (1 / 3) + 1) = 1 :=
    pyInt_eval (by norm_num) (by norm_num) (by norm_num)
  have hj1 : pyInt ((((1 : ℕ)) : ℚ) * (1 / 3) + (1 / 2) * (1 / 3)) = 0 :=
    pyInt_eval (by norm_num) (by norm_num) (by norm_num)
  have ha1 : pyInt ((((1 : ℕ)) : ℚ) * (1 / 3) + (1 / 2) * (1 / 3) - 1) = 0 :=
    (pyInt_eval_neg 0 (by norm_num) (by norm_num) (by norm_num)).trans (by norm_num)
  have hb1 : pyInt ((((1 : ℕ)) : ℚ) * (1 / 3) + (1 / 2) * (1 / 3) + 1) = 1 :=
    pyInt_eval (by norm_num) (by norm_num) (by norm_num)
  have hj2 : pyInt ((((2 : ℕ)) : ℚ) * (1 / 3) + (1 / 2) * (1 / 3)) = 0 :=
    pyInt_eval (by norm_num) (by norm_num) (by norm_num)
  have ha2 : pyInt ((((2 : ℕ)) : ℚ) * (1 / 3) + (1 / 2) * (1 / 3) - 1) = 0 :=
    (pyInt_eval_neg 0 (by norm_num) (by norm_num) (by norm_num)).trans (by norm_num)
  have hb2 : pyInt ((((2 : ℕ)) : ℚ) * (1 / 3) + (1 / 2) * (1 / 3) + 1) = 1 :=
    pyInt_eval (by norm_num) (by norm_num) (by norm_num)
  have hsetF : setIndex [false] 0 true = .ok [true] := by decide
  have hsetT : setIndex [true] 0 true = .ok [true] := by decide
  have hslT : setSlice [true] 0 1 false = [false] := by decide
  have hslF : setSlice [false] 0 1 false = [false] := by decide
  have s0 := maskLoop_cons_ok (1 / 3) 1 0 [1, 2] [false] [true] [true] 0 0 1
    hj0 ha0 hb0 hsetF
  rw [hslT] at s0
  have s1 := maskLoop_cons_ok (1 / 3) 1 1 [2] [true] [false] [true] 0 0 1
    hj1 ha1 hb1 hsetT
  rw [hslF] at s1
  have s2 := maskLoop_cons_ok (1 / 3) 1 2 [] [true] [false] [true] 0 0 1
    hj2 ha2 hb2 hsetT
  rw [hslF] at s2
  exact ((s0.trans s1).trans s2).trans (maskLoop_nil _ _ _ _)

theorem calcSemisPre_c5cex :
    calcSemisPre c5cex idPow = .ok [(5, (2, "EM"))] := by
  have h := calcSemisPre_eval c5cex idPow [0] [5] 3 [true] [false]
    [5] [] unidistE_c5cex nLargeC_c5cex (by norm_num)
    (by norm_num [spacingsDef, idPow, c5cex]) ?_ ?_ ?_
  · refine h.trans ?_
    norm_num [c5cex]
  · have e1 : ((List.length [(0 : ℚ)] : ℕ) : ℚ) / ((3 : ℤ) : ℚ) = 1 / 3 := by
      norm_num
    have e2 : massMultiplier c5cex / 2 = 1 := by norm_num [massMultiplier, c5cex]
    have e3 : List.range (3 : ℤ).toNat = [0, 1, 2] := rfl
    have e4 : List.replicate (List.length [(5 : ℚ)]) false = [false] := rfl
    have e5 : List.replicate (List.length [(5 : ℚ)]) true = [true] := rfl
    simp only [e1, e2, e3, e4, e5]
    exact hloopNum_c5cex
  · simp [maskSelect]
  · simp [maskSelect]

theorem calcSemis_c5cex : calcSemis c5cex idPow = .ok c5out := by
  have h := calcSemis_of_pre c5cex idPow _ calcSemisPre_c5cex
  rw [show sortBodies [(5, (2, "EM"))] = [(5, (2, "EM"))]
    from by norm_num [sortBodies, List.insertionSort, List.orderedInsert]] at h
  simp only [List.map] at h
  exact h

theorem nLargeC_c6cfg : nLargeC c6cfg = 0 :=
  pyInt_eval (by norm_num [c6cfg]) (by norm_num [c6cfg]) (by norm_num [c6cfg])

theorem gridNum_c6cfg : gridNum c6cfg = 200 := by
  rw [gridNum, nLargeC_c6cfg]
  exact pyInt_eval (by norm_num [c6cfg]) (by norm_num [c6cfg]) (by norm_num [c6cfg])

theorem unidistE_c6cfg : unidistE c6cfg =
    .ok ((List.range (200 : ℤ).toNat).map fun k : ℕ =>
      (k : ℚ) / (((200 : ℤ) : ℚ) - 1)) := by
  rw [unidistE, gridNum_c6cfg, linspace01, if_neg (by norm_num)]

theorem calcSemis_c6cfg : calcSemis c6cfg idPow = .error .zeroDivision :=
  calcSemis_of_pre_err c6cfg idPow _
    (calcSemisPre_zeroDiv c6cfg idPow _ unidistE_c6cfg nLargeC_c6cfg)

theorem nLargeC_c5bcex : nLargeC c5bcex = 5 :=
  pyInt_eval (by norm_num [c5bcex]) (by norm_num [c5bcex]) (by norm_num [c5bcex])

theorem gridNum_c5bcex : gridNum c5bcex = 0 := by
  rw [gridNum, nLargeC_c5bcex]
  exact pyInt_eval (by norm_num [c5bcex]) (by norm_num [c5bcex]) (by norm_num [c5bcex])

theorem unidistE_c5bcex : unidistE c5bcex = .ok [] := by
  rw [unidistE, gridNum_c5bcex, linspace01, if_neg (by norm_num)]
  simp

theorem hloopErr_c5bcex :
    maskLoop 0 1 [0, 1, 2, 3, 4] [] [] = .error .indexError := by
  have hj : pyInt ((((0 : ℕ)) : ℚ) * 0 + (1 / 2) * 0) = 0 :=
    pyInt_eval (by norm_num) (by norm_num) (by norm_num)
  have hset : setIndex [] 0 true = .error .indexError := by decide
  exact maskLoop_cons_err 0 1 0 [1, 2, 3, 4] [] [] 0 .indexError hj hset

theorem calcSemisPre_c5bcex :
    calcSemisPre c5bcex idPow = .error .indexError := by
  refine calcSemisPre_loop_err c5bcex idPow [] [] 5 .indexError
    unidistE_c5bcex nLargeC_c5bcex (by norm_num)
    (by simp [spacingsDef]) ?_
  have e1 : ((List.length ([] : List ℚ) : ℕ) : ℚ) / ((5 : ℤ) : ℚ) = 0 := by
    simp
  have e2 : massMultiplier c5bcex / 2 = 1 := by norm_num [massMultiplier, c5bcex]
  have e3 : List.range (5 : ℤ).toNat = [0, 1, 2, 3, 4] := rfl
  have e4 : List.replicate (List.length ([] : List ℚ)) false = [] := rfl
  have e5 : List.replicate (List.length ([] : List ℚ)) true = [] := rfl
  simp only [e1, e2, e3, e4, e5]
  exact hloopErr_c5bcex

theorem calcSemis_c5bcex : calcSemis c5bcex idPow = .error .indexError :=
  calcSemis_of_pre_err c5bcex idPow _ calcSemisPre_c5bcex

theorem nLargeC_c7cex : nLargeC c7cex = 1 :=
  pyInt_eval (by norm_num [c7cex]) (by norm_num [c7cex]) (by norm_num [c7cex])

theorem gridNum_c7cex : gridNum c7cex = 2 := by
  rw [gridNum, nLargeC_c7cex]
  exact pyInt_eval (by norm_num [c7cex]) (by norm_num [c7cex]) (by norm_num [c7cex])

theorem unidistE_c7cex : unidistE c7cex = .ok [0, 1] := by
  rw [unidistE, gridNum_c7cex, linspace01, if_neg (by norm_num)]
  rw [show ((2 : ℤ)).toNat = 2 from rfl]
  norm_num [List.range_succ]

end DiskMaker

namespace DiskMaker

theorem maskSelect_subset {xs : List ℚ} {bs : List Bool} {y : ℚ}
    (h : y ∈ maskSelect xs bs) : y ∈ xs := by
  induction xs generalizing bs with
  | nil => simp [maskSelect] at h
  | cons x rest ih =>
    cases bs with
    | nil => simp [maskSelect] at h
    | cons b bt =>
      by_cases hb : b = true
      · subst hb
        rw [maskSelect, if_pos rfl, List.mem_cons] at h
        rcases h with h | h
        · exact h ▸ List.mem_cons_self x rest
        · exact List.mem_cons_of_mem x (ih h)
      · rw [maskSelect, if_neg hb] at h
        exact List.mem_cons_of_mem x (ih h)

theorem maskSelect_length {xs : List ℚ} {bs : List Bool}
    (h : xs.length = bs.length) :
    (maskSelect xs bs).length = bs.count true := by
  induction xs generalizing bs with
  | nil =>
    cases bs with
    | nil => simp [maskSelect]
    | cons b bt => simp at h
  | cons x rest ih =>
    cases bs with
    | nil => simp at h
    | cons b bt =>
      simp only [List.length_cons, Nat.succ_inj] at h
      by_cases hb : b = true
      · subst hb
        rw [maskSelect, if_pos rfl]
        simp [ih h, List.count_cons]
      · rw [maskSelect, if_neg hb]
        rw [ih h, List.count_cons]
        simp [Ne.symm hb]
        cases b
        · simp
        · exact absurd rfl hb

theorem getD_set_eq {xs : List Bool} {k : ℕ} (v : Bool)
    (h : k < xs.length) : (xs.set k v).getD k false = v := by
  induction xs generalizing k with
  | nil => simp at h
  | cons x rest ih =>
    cases k with
    | zero => simp
    | succ m =>
      simp only [List.length_cons, Nat.succ_lt_succ_iff] at h
      simpa using ih h

theorem getD_set_ne (xs : List Bool) (k m : ℕ) (v : Bool)
    (h : m ≠ k) : (xs.set k v).getD m false = xs.getD m false := by
  induction xs generalizing k m with
  | nil => simp
  | cons x rest ih =>
    cases k with
    | zero =>
      cases m with
      | zero => exact absurd rfl h
      | succ m2 => simp
    | succ k2 =>
      cases m with
      | zero => simp
      | succ m2 =>
        simpa using ih k2 m2 (fun hc => h (by rw [hc]))

theorem count_true_set {xs : List Bool} {k : ℕ}
    (hk : k < xs.length) (hx : xs.getD k false = false) :
    (xs.set k true).count true = xs.count true + 1 := by
  induction xs generalizing k with
  | nil => simp at hk
  | cons x rest ih =>
    cases k with
    | zero =>
      simp only [List.getD_cons_zero] at hx
      subst hx
      simp [List.count_cons]
    | succ m =>
      simp only [List.length_cons, Nat.succ_lt_succ_iff] at hk
      simp only [List.getD_cons_succ] at hx
      simp only [List.set_cons_succ, List.count_cons, ih hk hx]
      ring

theorem zip_proj_eq : ∀ l : List Body,
    (l.map (fun p => p.1)).zip ((l.map (fun p => p.2.1)).zip
      (l.map (fun p => p.2.2))) = l
  | [] => rfl
  | p :: rest => by simp [zip_proj_eq rest]

theorem map_snd_fst_zip : ∀ (a b : List ℚ) (c : List String),
    a.length = b.length → b.length = c.length →
    ((a.zip (b.zip c)).map fun p => p.2.1) = b
  | [], [], _, _, _ => rfl
  | [], b :: bt, _, h, _ => by simp at h
  | a :: at2, [], _, h, _ => by simp at h
  | a :: at2, b :: bt, [], _, h => by simp at h
  | a :: at2, b :: bt, c :: ct, h1, h2 => by
    simp only [List.zip_cons_cons, List.map_cons]
    rw [map_snd_fst_zip at2 bt ct (by simpa using h1) (by simpa using h2)]

theorem count_map_const_self (l : List ℚ) (a : ℚ) :
    (l.map fun _ => a).count a = l.length := by
  induction l with
  | nil => simp
  | cons x rest ih => simp [List.count_cons, ih]

theorem count_map_const_ne (l : List ℚ) (a b : ℚ) (h : a ≠ b) :
    (l.map fun _ => a).count b = 0 := by
  induction l with
  | nil => simp
  | cons x rest ih =>
    rw [List.map_cons, List.count_cons, ih]
    simp [h, Ne.symm h]

theorem setIndex_ok_elim {xs ys : List Bool} {i : ℤ} {v : Bool}
    (h0 : 0 ≤ i) (h : setIndex xs i v = .ok ys) :
    i < xs.length ∧ ys = xs.set i.toNat v := by
  rw [setIndex] at h
  simp only [if_neg (not_lt.mpr h0)] at h
  split at h
  · rename_i hc
    exact ⟨hc.2, by injection h with h; exact h.symm⟩
  · exact absurd h (by simp)

theorem setIndex_ok_length {xs ys : List Bool} {i : ℤ} {v : Bool}
    (h : setIndex xs i v = .ok ys) : ys.length = xs.length := by
  rw [setIndex] at h
  by_cases hi0 : i < 0
  · simp only [if_pos hi0] at h
    split at h
    · injection h with h
      rw [← h, List.length_set]
    · exact absurd h (by simp)
  · simp only [if_neg hi0] at h
    split at h
    · injection h with h
      rw [← h, List.length_set]
    · exact absurd h (by simp)

theorem maskLoop_length (pos mmHalf : ℚ) :
    ∀ (is : List ℕ) (mL mS mL2 mS2 : List Bool),
      maskLoop pos mmHalf is mL mS = .ok (mL2, mS2) →
      mL2.length = mL.length
  | [], mL, mS, mL2, mS2, h => by
    rw [maskLoop_nil] at h
    injection h with h
    injection h with ha hb
    rw [← ha]
  | i :: rest, mL, mS, mL2, mS2, h => by
    rw [maskLoop] at h
    cases hs : setIndex mL (pyInt ((i : ℚ) * pos + (1 / 2) * pos)) true with
    | error e => rw [hs] at h; exact absurd h (by simp [Except.bind])
    | ok mL3 =>
      rw [hs, exceptBind_ok] at h
      rw [maskLoop_length pos mmHalf rest mL3 _ mL2 mS2 h, setIndex_ok_length hs]

theorem unidistE_length {c : DiskConfig} {l : List ℚ}
    (h : unidistE c = .ok l) : l.length = (gridNum c).toNat := by
  rw [unidistE, linspace01] at h
  split at h
  · exact absurd h (by simp)
  · injection h with h
    rw [← h, List.length_map, List.length_range]

theorem unidistE_mem_bounds {c : DiskConfig} {l : List ℚ}
    (h : unidistE c = .ok l) {u : ℚ} (hu : u ∈ l) : 0 ≤ u ∧ u ≤ 1 := by
  rw [unidistE, linspace01] at h
  split at h
  · exact absurd h (by simp)
  · rename_i hneg
    injection h with h
    rw [← h] at hu
    rcases List.mem_map.mp hu with ⟨k, hk, hku⟩
    rw [List.mem_range] at hk
    by_cases hone : ((gridNum c : ℚ) - 1) = 0
    · have hg1 : gridNum c = 1 := by
        have h2 : (gridNum c : ℚ) = 1 := by linarith
        exact_mod_cast h2
      rw [hg1] at hk
      have hk0 : k = 0 := by omega
      rw [← hku, hk0, hone]
      norm_num
    · have hg0 : 0 ≤ gridNum c := not_lt.mp hneg
      have hk2 : (k : ℤ) < gridNum c := by omega
      have hne1 : gridNum c ≠ 1 := fun hgg => hone (by rw [hgg]; norm_num)
      have hg2 : 2 ≤ gridNum c := by omega
      have hd : 0 < (gridNum c : ℚ) - 1 := by
        have h2 : (2 : ℚ) ≤ (gridNum c : ℚ) := by exact_mod_cast hg2
        linarith
      have hk3 : (k : ℚ) ≤ (gridNum c : ℚ) - 1 := by
        have hk4 : (k : ℤ) ≤ gridNum c - 1 := by omega
        have hk5 : ((k : ℤ) : ℚ) ≤ ((gridNum c - 1 : ℤ) : ℚ) := Int.cast_le.mpr hk4
        push_cast at hk5
        linarith
      constructor
      · rw [← hku]
        positivity
      · rw [← hku, div_le_one hd]
        linarith

end DiskMaker

namespace DiskMaker

theorem maskLoop_large_count (pos mmHalf : ℚ) (hpos : 1 ≤ pos) :
    ∀ (is : List ℕ) (mL mS mL2 mS2 : List Bool),
      maskLoop pos mmHalf is mL mS = .ok (mL2, mS2) →
      List.Pairwise (· < ·) is →
      (∀ i ∈ is, ∀ k : ℕ, mL.getD k false = true →
        (k : ℤ) < ⌊(i : ℚ) * pos + (1 / 2) * pos⌋) →
      mL2.count true = mL.count true + is.length
  | [], mL, mS, mL2, mS2, h, _, _ => by
    rw [maskLoop_nil] at h
    injection h with h
    injection h with ha hb
    rw [← ha, List.length_nil, Nat.add_zero]
  | i :: rest, mL, mS, mL2, mS2, h, hpw, hbound => by
    have hp0 : (0 : ℚ) ≤ pos := le_trans zero_le_one hpos
    have hv0 : (0 : ℚ) ≤ (i : ℚ) * pos + (1 / 2) * pos :=
      add_nonneg (mul_nonneg (Nat.cast_nonneg i) hp0)
        (mul_nonneg (by norm_num) hp0)
    have hpy : pyInt ((i : ℚ) * pos + (1 / 2) * pos) =
        ⌊(i : ℚ) * pos + (1 / 2) * pos⌋ := pyInt_eq_floor hv0
    have hj0 : 0 ≤ ⌊(i : ℚ) * pos + (1 / 2) * pos⌋ := Int.floor_nonneg.mpr hv0
    rw [maskLoop, hpy] at h
    cases hs : setIndex mL ⌊(i : ℚ) * pos + (1 / 2) * pos⌋ true with
    | error e => rw [hs] at h; exact absurd h (by simp [Except.bind])
    | ok mL3 =>
      rw [hs, exceptBind_ok] at h
      rcases setIndex_ok_elim hj0 hs with ⟨hjlen, hys⟩
      have hfalse : mL.getD ⌊(i : ℚ) * pos + (1 / 2) * pos⌋.toNat false = false := by
        by_contra hcon
        have hT : mL.getD ⌊(i : ℚ) * pos + (1 / 2) * pos⌋.toNat false = true := by
          revert hcon
          cases mL.getD ⌊(i : ℚ) * pos + (1 / 2) * pos⌋.toNat false <;> simp
        have hlt := hbound i (List.mem_cons_self i rest) _ hT
        rw [Int.toNat_of_nonneg hj0] at hlt
        exact absurd hlt (lt_irrefl _)
      have hcount : mL3.count true = mL.count true + 1 := by
        rw [hys]
        refine count_true_set ?_ hfalse
        omega
      have hnewbound : ∀ i2 ∈ rest, ∀ k : ℕ, mL3.getD k false = true →
          (k : ℤ) < ⌊(i2 : ℚ) * pos + (1 / 2) * pos⌋ := by
        intro i2 hi2 k hk
        by_cases hkj : k = ⌊(i : ℚ) * pos + (1 / 2) * pos⌋.toNat
        · subst hkj
          rw [Int.toNat_of_nonneg hj0]
          have hii : i < i2 := (List.pairwise_cons.mp hpw).1 i2 hi2
          have hcast : (i : ℚ) + 1 ≤ (i2 : ℚ) := by
            exact_mod_cast Nat.succ_le_of_lt hii
          have hd1 : (1 : ℚ) * pos ≤ ((i2 : ℚ) - (i : ℚ)) * pos :=
            mul_le_mul_of_nonneg_right (by linarith) hp0
          have hfl : ((⌊(i : ℚ) * pos + (1 / 2) * pos⌋ + 1 : ℤ) : ℚ) ≤
              (i2 : ℚ) * pos + (1 / 2) * pos := by
            have hfl2 := Int.floor_le ((i : ℚ) * pos + (1 / 2) * pos)
            push_cast
            nlinarith
          exact lt_of_lt_of_le (lt_add_one _) (Int.le_floor.mpr hfl)
        · rw [hys, getD_set_ne _ _ _ _ hkj] at hk
          exact hbound i2 (List.mem_cons_of_mem i hi2) k hk
      have hstep := maskLoop_large_count pos mmHalf hpos rest mL3 _ mL2 mS2 h
        ((List.pairwise_cons.mp hpw).2) hnewbound
      rw [hstep, hcount, List.length_cons]
      ring

theorem calcSemisPre_ok_elim {c : DiskConfig} {rpow : ℚ → ℚ} {pre : List Body}
    (h : calcSemisPre c rpow = .ok pre) :
    ∃ (unidist : List ℚ) (mL mS : List Bool),
      unidistE c = .ok unidist ∧ ¬nLargeC c = 0 ∧
      maskLoop ((unidist.length : ℚ) / (nLargeC c : ℚ)) (massMultiplier c / 2)
        (List.range (nLargeC c).toNat)
        (List.replicate (spacingsDef c rpow unidist).length false)
        (List.replicate (spacingsDef c rpow unidist).length true) =
        .ok (mL, mS) ∧
      pre = ((maskSelect (spacingsDef c rpow unidist) mL ++
          maskSelect (spacingsDef c rpow unidist) mS).zip
        (((maskSelect (spacingsDef c rpow unidist) mL).map (fun _ => c.largeMass) ++
          (maskSelect (spacingsDef c rpow unidist) mS).map
            (fun _ => c.smallMass)).zip
          (((maskSelect (spacingsDef c rpow unidist) mL).map (fun _ => c.largeMass) ++
            (maskSelect (spacingsDef c rpow unidist) mS).map
              (fun _ => c.smallMass)).map
            fun m => if c.smallMass < m then "EM" else "PL"))) := by
  rw [calcSemisPre.eq_def] at h
  split at h
  · exact absurd h (by simp)
  · rename_i unidist heq
    split at h
    · exact absurd h (by simp)
    · rename_i hn0
      dsimp only [] at h
      split at h
      · exact absurd h (by simp)
      · rename_i mL mS hm
        refine ⟨unidist, mL, mS, heq, hn0, hm, ?_⟩
        injection h with h
        exact h.symm

end DiskMaker

namespace DiskMaker

/-- C3: for every configuration and power map, whenever `calcSemis`
returns, the returned semimajor axes are monotonically non-decreasing,
and the three returned arrays are the images of one and the same sort
of the unsorted population, so each body keeps its own mass and type
label (the zipped output is a permutation of the unsorted body list). -/
theorem calcSemis_sorted_perm (c : DiskConfig) (rpow : ℚ → ℚ)
    (pre : List Body) (out : DiskOut)
    (hpre : calcSemisPre c rpow = .ok pre)
    (hout : calcSemis c rpow = .ok out) :
    List.Pairwise (· ≤ ·) out.semis ∧
      (out.semis.zip (out.masses.zip out.types)).Perm pre := by
  have h := calcSemis_of_pre c rpow pre hpre
  rw [hout] at h
  injection h with h
  have hsem : out.semis = (sortBodies pre).map (fun p => p.1) := by rw [h]
  have hmas : out.masses = (sortBodies pre).map (fun p => p.2.1) := by rw [h]
  have htyp : out.types = (sortBodies pre).map (fun p => p.2.2) := by rw [h]
  constructor
  · rw [hsem, List.pairwise_map]
    exact List.sorted_insertionSort bodyLe pre
  · rw [hsem, hmas, htyp, zip_proj_eq]
    exact List.perm_insertionSort bodyLe pre

/-- Witness for C3 at a concrete input: the small valid configuration
with one large body. -/
theorem calcSemis_sorted_perm_witness :
    List.Pairwise (· ≤ ·) smallOut.semis ∧
      (smallOut.semis.zip (smallOut.masses.zip smallOut.types)).Perm
        [(5 / 3, (2, "EM")), (1, (1, "PL")), (2, (1, "PL"))] :=
  calcSemis_sorted_perm smallCfg idPow _ smallOut calcSemisPre_smallCfg
    calcSemis_smallCfg

/-- C4 (amended): for every valid configuration and every power map
sending `[0, 1]` into `[0, 1]` — which `u ↦ u ^ (alpha/2)` does exactly
when `alpha ≥ 0` — every semimajor axis returned by `calcSemis`
satisfies `inner ≤ s ≤ outer`.  The claim as stated, covering every
sign of `alpha`, is refuted by `calcSemis_radius_bounds_counterexample`. -/
theorem calcSemis_radius_bounds (c : DiskConfig) (rpow : ℚ → ℚ)
    (out : DiskOut) (hin : 0 < c.inner) (hio : c.inner < c.outer)
    (hr : ∀ u, 0 ≤ u → u ≤ 1 → 0 ≤ rpow u ∧ rpow u ≤ 1)
    (hout : calcSemis c rpow = .ok out) :
    ∀ s ∈ out.semis, c.inner ≤ s ∧ s ≤ c.outer := by
  intro s hs
  cases hpre : calcSemisPre c rpow with
  | error e =>
    rw [calcSemis_of_pre_err c rpow e hpre] at hout
    exact absurd hout (by simp)
  | ok pre =>
    have h := calcSemis_of_pre c rpow pre hpre
    rw [hout] at h
    injection h with h
    have hsem : out.semis = (sortBodies pre).map (fun p => p.1) := by rw [h]
    rw [hsem] at hs
    rcases List.mem_map.mp hs with ⟨b, hb, hbs⟩
    have hbpre : b ∈ pre := (List.perm_insertionSort bodyLe pre).mem_iff.mp hb
    rcases calcSemisPre_ok_elim hpre with ⟨unidist, mL, mS, hu, -, -, hpre_eq⟩
    rw [hpre_eq] at hbpre
    obtain ⟨x, y⟩ := b
    have hx : x ∈ maskSelect (spacingsDef c rpow unidist) mL ++
        maskSelect (spacingsDef c rpow unidist) mS := (List.of_mem_zip hbpre).1
    have hxsp : x ∈ spacingsDef c rpow unidist := by
      rcases List.mem_append.mp hx with h2 | h2
      · exact maskSelect_subset h2
      · exact maskSelect_subset h2
    rw [spacingsDef] at hxsp
    rcases List.mem_map.mp hxsp with ⟨w, hw, hwx⟩
    rcases List.mem_map.mp hw with ⟨u, hu2, huw⟩
    rcases unidistE_mem_bounds hu hu2 with ⟨h0u, h1u⟩
    rcases hr u h0u h1u with ⟨hr0, hr1⟩
    subst hbs
    subst hwx
    subst huw
    constructor
    · show c.inner ≤ rpow u * (c.outer - c.inner) + c.inner
      have hmn : 0 ≤ rpow u * (c.outer - c.inner) :=
        mul_nonneg hr0 (by linarith)
      linarith
    · show rpow u * (c.outer - c.inner) + c.inner ≤ c.outer
      have hmx : rpow u * (c.outer - c.inner) ≤ 1 * (c.outer - c.inner) :=
        mul_le_mul_of_nonneg_right hr1 (by linarith)
      linarith

/-- Counterexample for C4 as stated: at the valid configuration
`c4cex` with `alpha = -2` (the input invariant puts no sign condition
on alpha) the returned population contains the semimajor axis `5/2`,
which exceeds `outer = 2`. -/
theorem calcSemis_radius_bounds_counterexample :
    calcSemis c4cex invPow = .ok c4out ∧ (5 / 2 : ℚ) ∈ c4out.semis ∧
      ¬(c4cex.inner ≤ (5 / 2 : ℚ) ∧ (5 / 2 : ℚ) ≤ c4cex.outer) := by
  refine ⟨calcSemis_c4cex, by norm_num [c4out], ?_⟩
  intro hcon
  rcases hcon with ⟨-, h2⟩
  norm_num [c4cex] at h2

/-- Witness for C4 (amended) at a concrete input: the small valid
configuration with `alpha = 2`, whose power map is the identity; the
returned semimajor axis 5/3 lies within the radial bounds. -/
theorem calcSemis_radius_bounds_witness :
    smallCfg.inner ≤ (5 / 3 : ℚ) ∧ (5 / 3 : ℚ) ≤ smallCfg.outer :=
  calcSemis_radius_bounds smallCfg idPow smallOut (by norm_num [smallCfg])
    (by norm_num [smallCfg]) (fun u h1 h2 => ⟨h1, h2⟩) calcSemis_smallCfg
    (5 / 3) (by norm_num [smallOut])

end DiskMaker

namespace DiskMaker

theorem getD_replicate_false : ∀ n k : ℕ,
    (List.replicate n false).getD k false = false
  | 0, _ => by simp
  | n + 1, 0 => by simp
  | n + 1, k + 1 => by simpa using getD_replicate_false n k

/-- C2 (amended): for every valid configuration whose mass budget
allows at least one large body (`largeMass ≤ totalMass - nSmall*smallMass`);
the claim as stated, with no budget restriction, is refuted by
`calcSemis_mass_count_counterexample`), whenever `calcSemis` returns,
the mass sequence contains only the two values smallMass and largeMass
and the number of bodies assigned largeMass is exactly
`floor((totalMass - nSmall*smallMass)/largeMass)`. -/
theorem calcSemis_mass_values_count (c : DiskConfig) (rpow : ℚ → ℚ)
    (out : DiskOut) (htm : 0 < c.totalMass) (hsm : 0 < c.smallMass)
    (hml : c.smallMass < c.largeMass) (hns : 0 ≤ c.nSmall)
    (hin : 0 < c.inner) (hio : c.inner < c.outer)
    (hbudget : c.largeMass ≤ c.totalMass - c.nSmall * c.smallMass)
    (hout : calcSemis c rpow = .ok out) :
    (∀ m ∈ out.masses, m = c.smallMass ∨ m = c.largeMass) ∧
      (out.masses.count c.largeMass : ℤ) =
        ⌊(c.totalMass - c.nSmall * c.smallMass) / c.largeMass⌋ := by
  have hlm : 0 < c.largeMass := lt_trans hsm hml
  have hq1 : (1 : ℚ) ≤ (c.totalMass - c.nSmall * c.smallMass) / c.largeMass :=
    (one_le_div hlm).mpr hbudget
  have hq0 : (0 : ℚ) ≤ (c.totalMass - c.nSmall * c.smallMass) / c.largeMass :=
    le_trans zero_le_one hq1
  have hnfloor : nLargeC c =
      ⌊(c.totalMass - c.nSmall * c.smallMass) / c.largeMass⌋ :=
    pyInt_eq_floor hq0
  have hn1 : 1 ≤ nLargeC c := by
    rw [hnfloor]
    exact Int.le_floor.mpr (by push_cast; exact hq1)
  cases hpre : calcSemisPre c rpow with
  | error e =>
    rw [calcSemis_of_pre_err c rpow e hpre] at hout
    exact absurd hout (by simp)
  | ok pre =>
    have h := calcSemis_of_pre c rpow pre hpre
    rw [hout] at h
    injection h with h
    have hmas : out.masses = (sortBodies pre).map (fun p => p.2.1) := by rw [h]
    rcases calcSemisPre_ok_elim hpre with ⟨unidist, mL, mS, hu, hn0, hm, hpre_eq⟩
    have hpermM : ((sortBodies pre).map (fun p => p.2.1)).Perm
        (pre.map fun p => p.2.1) :=
      (List.perm_insertionSort bodyLe pre).map _
    have hmapPre : (pre.map fun p => p.2.1) =
        (maskSelect (spacingsDef c rpow unidist) mL).map (fun _ => c.largeMass) ++
        (maskSelect (spacingsDef c rpow unidist) mS).map (fun _ => c.smallMass) := by
      rw [hpre_eq]
      apply map_snd_fst_zip
      · simp
      · simp
    have hmem : ∀ m ∈ out.masses, m = c.smallMass ∨ m = c.largeMass := by
      intro m hmm
      rw [hmas] at hmm
      have hmm2 := hpermM.mem_iff.mp hmm
      rw [hmapPre] at hmm2
      rcases List.mem_append.mp hmm2 with h2 | h2
      · rcases List.mem_map.mp h2 with ⟨-, -, hx⟩
        exact Or.inr hx.symm
      · rcases List.mem_map.mp h2 with ⟨-, -, hx⟩
        exact Or.inl hx.symm
    refine ⟨hmem, ?_⟩
    -- length bookkeeping
    have hlen_mL : mL.length = (spacingsDef c rpow unidist).length := by
      have h2 := maskLoop_length _ _ _ _ _ _ _ hm
      rw [h2, List.length_replicate]
    -- grid is at least nLarge
    have hr1 : (1 : ℚ) < c.largeMass / c.smallMass := (one_lt_div hsm).mpr hml
    have hn1q : (1 : ℚ) ≤ (nLargeC c : ℚ) := by exact_mod_cast hn1
    have hns2 : (0 : ℚ) ≤ (c.nSmall : ℚ) := by exact_mod_cast hns
    have hw : (nLargeC c : ℚ) <
        (c.nSmall : ℚ) + c.largeMass * (nLargeC c : ℚ) / c.smallMass := by
      have h3 : (nLargeC c : ℚ) * 1 < (nLargeC c : ℚ) * (c.largeMass / c.smallMass) :=
        mul_lt_mul_of_pos_left hr1 (by linarith)
      have h4 : (nLargeC c : ℚ) * (c.largeMass / c.smallMass) =
          c.largeMass * (nLargeC c : ℚ) / c.smallMass := by ring
      linarith [h3, h4.symm.le]
    have hw0 : (0 : ℚ) ≤ (c.nSmall : ℚ) + c.largeMass * (nLargeC c : ℚ) / c.smallMass :=
      by linarith
    have hgridfloor : gridNum c =
        ⌊(c.nSmall : ℚ) + c.largeMass * (nLargeC c : ℚ) / c.smallMass⌋ :=
      pyInt_eq_floor hw0
    have hgrid : nLargeC c ≤ gridNum c := by
      rw [hgridfloor]
      exact Int.le_floor.mpr (le_of_lt hw)
    have hlenl := unidistE_length hu
    have hlen2 : nLargeC c ≤ (unidist.length : ℤ) := by
      rw [hlenl]
      omega
    have hnpos : (0 : ℚ) < (nLargeC c : ℚ) := by linarith
    have hpos : 1 ≤ (unidist.length : ℚ) / (nLargeC c : ℚ) := by
      rw [one_le_div hnpos]
      have h5 : ((nLargeC c : ℤ) : ℚ) ≤ ((unidist.length : ℤ) : ℚ) :=
        Int.cast_le.mpr hlen2
      push_cast at h5
      push_cast
      linarith
    have hcnt := maskLoop_large_count _ _ hpos _ _ _ _ _ hm
      (List.pairwise_lt_range _) ?_
    · -- assemble the count
      have hrep : (List.replicate (spacingsDef c rpow unidist).length false).count
          true = 0 := by
        simp [List.count_replicate]
      rw [hrep, List.length_range, Nat.zero_add] at hcnt
      have hsel : (maskSelect (spacingsDef c rpow unidist) mL).length =
          mL.count true := maskSelect_length hlen_mL.symm
      have hcntM : out.masses.count c.largeMass =
          (maskSelect (spacingsDef c rpow unidist) mL).length := by
        rw [hmas, hpermM.count_eq, hmapPre, List.count_append,
          count_map_const_self, count_map_const_ne _ _ _ (ne_of_lt hml),
          Nat.add_zero]
      rw [hcntM, hsel, hcnt, ← hnfloor]
      omega
    · intro i hi k hk
      rw [getD_replicate_false] at hk
      exact absurd hk (by simp)

/-- Counterexample for C2 as stated: the valid configuration `c2cex`
(positive masses, largeMass > smallMass > 0, nSmall ≥ 0,
outer > inner > 0) has mass budget `(1 - 4·1)/2 = -3/2`; calcSemis
returns normally with zero bodies of largeMass, but
`floor((totalMass - nSmall*smallMass)/largeMass) = -2`. -/
theorem calcSemis_mass_count_counterexample :
    calcSemis c2cex idPow = .ok c2out ∧
      ¬((c2out.masses.count c2cex.largeMass : ℤ) =
        ⌊(c2cex.totalMass - c2cex.nSmall * c2cex.smallMass) / c2cex.largeMass⌋) := by
  refine ⟨calcSemis_c2cex, ?_⟩
  have h1 : c2out.masses.count c2cex.largeMass = 0 := by
    norm_num [c2out, c2cex, List.count_cons]
  have h2 : ⌊(c2cex.totalMass - c2cex.nSmall * c2cex.smallMass) / c2cex.largeMass⌋ =
      (-2 : ℤ) := by
    rw [Int.floor_eq_iff]
    constructor
    · norm_num [c2cex]
    · norm_num [c2cex]
  rw [h1, h2]
  decide

/-- Witness for C2 (amended) at a concrete input: the small valid
configuration, whose budget allows one large body. -/
theorem calcSemis_mass_values_count_witness :
    (∀ m ∈ smallOut.masses, m = smallCfg.smallMass ∨ m = smallCfg.largeMass) ∧
      (smallOut.masses.count smallCfg.largeMass : ℤ) =
        ⌊(smallCfg.totalMass - smallCfg.nSmall * smallCfg.smallMass) /
          smallCfg.largeMass⌋ :=
  calcSemis_mass_values_count smallCfg idPow smallOut (by norm_num [smallCfg])
    (by norm_num [smallCfg]) (by norm_num [smallCfg]) (by norm_num [smallCfg])
    (by norm_num [smallCfg]) (by norm_num [smallCfg]) (by norm_num [smallCfg])
    calcSemis_smallCfg

end DiskMaker

namespace DiskMaker

/-- C6: the claim says that when the computed nLarge is zero the
masking loop is skipped and an all-small population is returned; in
fact line 78 (`pos = len(unidist) / nLarge`) divides by `nLarge` before
the loop, so the code raises ZeroDivisionError at the failing input
`totalMass=2.0, smallMass=0.01, largeMass=0.1, nSmall=200` (for which
nLarge = 0) and returns nothing. -/
theorem calcSemis_nLargeZero_zeroDivision :
    nLargeC c6cfg = 0 ∧ calcSemis c6cfg idPow = .error .zeroDivision :=
  ⟨nLargeC_c6cfg, calcSemis_c6cfg⟩

/-- Counterexample for C5 as stated: `c5cex` has `nSmall = -5 < 0` and
inverted radial bounds (`inner = 5 > outer = 3`), yet `calcSemis`
returns a population without raising anything; and `drawEIOoM` called
with `size = 3` and an eccentricity override of length 1 returns the
mismatched array unchanged instead of raising. -/
theorem configurationError_counterexample :
    calcSemis c5cex idPow = .ok c5out ∧
      (drawEIOoM 3 [("ecc", [0])] uniZero).ecc = [0] :=
  ⟨calcSemis_c5cex, by simp [drawEIOoM, List.lookup]⟩

/-- C5 (amended): the code performs no input validation and no
ConfigurationError exists in it.  `drawEIOoM` accepts an override
array of any length and returns it verbatim (for every size and
array); `calcSemis` raises nothing at `c5cex`, an input with
`nSmall = -5 < 0` and inverted radial bounds `inner = 5 > outer = 3`
that the claim says must be rejected, and returns a population; and
the failures that invalid inputs do trigger are unrelated incidental
exceptions, never a ConfigurationError: ZeroDivisionError from the
division by `nLarge` on line 78 when the computed `nLarge` is 0 (at
`c6cfg`), and IndexError from the masking loop indexing an empty grid
(at `c5bcex`, where `nSmall = -10` gives `nLarge = 5` but a
zero-point grid). -/
theorem no_configurationError_validation :
    (∀ (size : ℕ) (e : List ℚ) (uniform : ℚ → ℚ → ℕ → List ℚ),
      (drawEIOoM size [("ecc", e)] uniform).ecc = e) ∧
    calcSemis c5cex idPow = .ok c5out ∧
    calcSemis c6cfg idPow = .error .zeroDivision ∧
    calcSemis c5bcex idPow = .error .indexError := by
  refine ⟨?_, calcSemis_c5cex, calcSemis_c6cfg, calcSemis_c5bcex⟩
  intro size e uniform
  simp [drawEIOoM, List.lookup]

/-- Counterexample for C7 as stated: at the valid configuration
`c7cex` the quantity `nSmall + nLarge * (largeMass/smallMass)` equals
`5/2`, which is not the number of grid points: `numpy.linspace`
truncates the count to 2. -/
theorem grid_count_counterexample :
    unidistE c7cex = .ok [0, 1] ∧
      ¬((([0, (1 : ℚ)] : List ℚ).length : ℚ) =
        (c7cex.nSmall : ℚ) + (nLargeC c7cex : ℚ) * massMultiplier c7cex) := by
  refine ⟨unidistE_c7cex, ?_⟩
  rw [nLargeC_c7cex]
  norm_num [massMultiplier, c7cex]

end DiskMaker

namespace DiskMaker

theorem linspace_getD {c : DiskConfig} {l : List ℚ}
    (hu : unidistE c = .ok l) (i : ℕ) (hi : i < (gridNum c).toNat) :
    l.getD i 0 = (i : ℚ) / ((gridNum c : ℚ) - 1) := by
  rw [unidistE, linspace01] at hu
  split at hu
  · exact absurd hu (by simp)
  · injection hu with hu
    rw [← hu, List.getD_eq_getElem?_getD, List.getElem?_map,
      List.getElem?_range hi, Option.map_some', Option.getD_some]

/-- C7 (amended): the grid is built from `int(nSmall + nLarge *
(largeMass/smallMass))` points — the truncation of the claimed count,
which need not be an integer (see `grid_count_counterexample`) — and,
whenever there are at least two points, they are evenly spaced over
[0, 1] with both endpoints included, and each grid point u is mapped to
the radius `rpow u * (outer - inner) + inner` where `rpow` stands for
`u ↦ u ** (alpha/2)`. -/
theorem grid_structure (c : DiskConfig) (rpow : ℚ → ℚ) (l : List ℚ)
    (hu : unidistE c = .ok l) (h2 : 2 ≤ gridNum c) :
    l.length = (gridNum c).toNat ∧
    l.getD 0 0 = 0 ∧
    l.getD (l.length - 1) 0 = 1 ∧
    (∀ i : ℕ, i + 1 < l.length →
      l.getD (i + 1) 0 - l.getD i 0 = 1 / ((gridNum c : ℚ) - 1)) ∧
    spacingsDef c rpow l = l.map fun u => rpow u * (c.outer - c.inner) + c.inner := by
  have hlen := unidistE_length hu
  have hd0 : ((gridNum c : ℚ) - 1) ≠ 0 := by
    have h3 : (2 : ℚ) ≤ (gridNum c : ℚ) := by exact_mod_cast h2
    intro hcon
    have : (gridNum c : ℚ) = 1 := by linarith
    linarith
  refine ⟨hlen, ?_, ?_, ?_, ?_⟩
  · rw [linspace_getD hu 0 (by omega)]
    norm_num
  · rw [hlen, linspace_getD hu _ (by omega)]
    have hcast : (((gridNum c).toNat - 1 : ℕ) : ℚ) = (gridNum c : ℚ) - 1 := by
      have h4 : ((gridNum c).toNat - 1 : ℕ) = (gridNum c - 1).toNat := by omega
      rw [h4]
      have h5 : ((gridNum c - 1).toNat : ℤ) = gridNum c - 1 := by omega
      calc (((gridNum c - 1).toNat : ℕ) : ℚ) = (((gridNum c - 1).toNat : ℤ) : ℚ) := by
            push_cast
            ring
      _ = ((gridNum c - 1 : ℤ) : ℚ) := by rw [h5]
      _ = (gridNum c : ℚ) - 1 := by push_cast; ring
    rw [hcast, div_self hd0]
  · intro i hi
    rw [hlen] at hi
    rw [linspace_getD hu (i + 1) (by omega), linspace_getD hu i (by omega)]
    rw [div_sub_div_same]
    push_cast
    ring_nf
  · rw [spacingsDef, List.map_map]
    simp [Function.comp]

/-- Witness for C7 (amended) at a concrete input: the configuration
`c2cex` whose grid has exactly two points, 0 and 1. -/
theorem grid_structure_witness :
    [(0 : ℚ), 1].length = (gridNum c2cex).toNat ∧
    ([(0 : ℚ), 1]).getD 0 0 = 0 ∧
    ([(0 : ℚ), 1]).getD ([(0 : ℚ), 1].length - 1) 0 = 1 ∧
    (∀ i : ℕ, i + 1 < [(0 : ℚ), 1].length →
      ([(0 : ℚ), 1]).getD (i + 1) 0 - ([(0 : ℚ), 1]).getD i 0 =
        1 / ((gridNum c2cex : ℚ) - 1)) ∧
    spacingsDef c2cex idPow [(0 : ℚ), 1] =
      [(0 : ℚ), 1].map fun u => idPow u * (c2cex.outer - c2cex.inner) + c2cex.inner :=
  grid_structure c2cex idPow [0, 1] unidistE_c2cex (by rw [gridNum_c2cex])

end DiskMaker

namespace DiskMaker

theorem strDropLast_ne_empty {s : String} (h : 2 ≤ s.data.length) :
    strDropLast s ≠ "" := by
  intro hcon
  have hd : s.data.dropLast = [] := congrArg String.data hcon
  have hl := List.length_dropLast s.data
  rw [hd, List.length_nil] at hl
  omega

set_option maxRecDepth 4096 in
theorem writeHead_data_big : 2 ≤ writeHead.data.length := by decide

/-- C9 (amended): when the population passed to the serializer has
10000 or more bodies, `createBigin` only logs the error message of
line 208 (`tooManyLogged`); it does not raise, and it still returns a
non-empty serialized string; and `pad4` never truncates an index whose
decimal form already has four or more digits. -/
theorem createBigin_overflow_behavior (fmt : ℕ → ℚ → String)
    (fs fm : List ℚ) (bt : List String) (el : Elements)
    (h : 9999 < fs.length) :
    ((createBiginFromPop fmt fs fm bt el).tooManyLogged = true ∧
      (createBiginFromPop fmt fs fm bt el).output ≠ "") ∧
    ∀ i : ℕ, 4 ≤ (toString i).length → pad4 i = toString i := by
  refine ⟨⟨?_, ?_⟩, ?_⟩
  · simp only [createBiginFromPop, decide_eq_true_eq]
    exact h
  · simp only [createBiginFromPop]
    apply strDropLast_ne_empty
    rw [String.data_append, List.length_append]
    have hw := writeHead_data_big
    omega
  · intro i hi
    rw [pad4, if_neg (by omega)]

/-- Counterexample for C9 as stated: a population of exactly 10000
bodies makes the serializer log the too-many-bodies message but still
return a (non-empty) serialized string, rather than failing with a
NamingOverflowError. -/
theorem namingOverflow_counterexample :
    (createBiginFromPop cfmt (List.replicate 10000 1)
      (List.replicate 10000 (1 / 100)) (List.replicate 10000 "PL")
      bigEl).tooManyLogged = true ∧
    (createBiginFromPop cfmt (List.replicate 10000 1)
      (List.replicate 10000 (1 / 100)) (List.replicate 10000 "PL")
      bigEl).output ≠ "" := by
  constructor
  · simp only [createBiginFromPop, decide_eq_true_eq, List.length_replicate]
    norm_num
  · simp only [createBiginFromPop]
    apply strDropLast_ne_empty
    rw [String.data_append, List.length_append]
    have hw := writeHead_data_big
    omega

/-- Witness for C9 (amended) at a concrete input: a population of
10001 bodies. -/
theorem createBigin_overflow_behavior_witness :
    (((createBiginFromPop cfmt (List.replicate 10001 1)
        (List.replicate 10001 (1 / 100)) (List.replicate 10001 "PL")
        bigEl).tooManyLogged = true ∧
      (createBiginFromPop cfmt (List.replicate 10001 1)
        (List.replicate 10001 (1 / 100)) (List.replicate 10001 "PL")
        bigEl).output ≠ "") ∧
    ∀ i : ℕ, 4 ≤ (toString i).length → pad4 i = toString i) :=
  createBigin_overflow_behavior cfmt (List.replicate 10001 1)
    (List.replicate 10001 (1 / 100)) (List.replicate 10001 "PL") bigEl
    (by rw [List.length_replicate]; norm_num)

end DiskMaker

namespace DiskMaker

theorem log2_eq {q : ℚ} (e : ℤ) (h1 : (2 : ℚ) ^ e ≤ q)
    (h2 : q < (2 : ℚ) ^ (e + 1)) : Int.log 2 q = e := by
  have hq : (0 : ℚ) < q := lt_of_lt_of_le (by positivity) h1
  have h3 : ((2 : ℕ) : ℚ) ^ e ≤ q := by push_cast; exact h1
  have h4 : q < ((2 : ℕ) : ℚ) ^ (e + 1) := by push_cast; exact h2
  have hle := (Int.zpow_le_iff_le_log (by norm_num) hq).mp h3
  have hlt := (Int.lt_zpow_iff_log_lt (by norm_num) hq).mp h4
  omega

theorem roundPos_eq_dn (q : ℚ) (e n : ℤ)
    (h1 : (2 : ℚ) ^ e ≤ q) (h2 : q < (2 : ℚ) ^ (e + 1))
    (hn : ⌊q * 2 ^ ((52 : ℤ) - e)⌋ = n)
    (hr : q * 2 ^ ((52 : ℤ) - e) - (n : ℚ) < 1 / 2) :
    roundPos q = (n : ℚ) * 2 ^ (e - 52) := by
  rw [roundPos]
  simp only [log2_eq e h1 h2, hn]
  rw [if_pos hr]

theorem roundPos_eq_up (q : ℚ) (e n : ℤ)
    (h1 : (2 : ℚ) ^ e ≤ q) (h2 : q < (2 : ℚ) ^ (e + 1))
    (hn : ⌊q * 2 ^ ((52 : ℤ) - e)⌋ = n)
    (hr : (1 : ℚ) / 2 < q * 2 ^ ((52 : ℤ) - e) - (n : ℚ)) :
    roundPos q = ((n + 1 : ℤ) : ℚ) * 2 ^ (e - 52) := by
  rw [roundPos]
  simp only [log2_eq e h1 h2, hn]
  rw [if_neg (not_lt.mpr (le_of_lt hr)), if_pos hr]

theorem roundQ_pos {q : ℚ} (h : 0 < q) : roundQ q = roundPos q := by
  rw [roundQ, if_neg (ne_of_gt h), if_neg (not_lt.mpr (le_of_lt h))]

theorem roundQ_eval_c001 : roundQ (1 / 100) = 5764607523034235 / 2 ^ 59 := by
  rw [roundQ_pos (by norm_num),
    roundPos_eq_up (1 / 100) (-7) 5764607523034234 (by norm_num) (by norm_num)
      (by rw [Int.floor_eq_iff] <;> norm_num) (by norm_num)]
  norm_num

theorem roundQ_eval_c01 : roundQ (1 / 10) = 3602879701896397 / 2 ^ 55 := by
  rw [roundQ_pos (by norm_num),
    roundPos_eq_up (1 / 10) (-4) 7205759403792793 (by norm_num) (by norm_num)
      (by rw [Int.floor_eq_iff] <;> norm_num) (by norm_num)]
  norm_num

theorem roundQ_eval_t1 :
    fmul ((260 : ℤ) : ℚ) (5764607523034235 / 2 ^ 59) =
      5854679515581645 / 2 ^ 51 := by
  rw [fmul, show ((260 : ℤ) : ℚ) * (5764607523034235 / 2 ^ 59) =
      1498797955988901100 / 2 ^ 59 from by norm_num,
    roundQ_pos (by norm_num),
    roundPos_eq_up (1498797955988901100 / 2 ^ 59) 1 5854679515581644
      (by norm_num) (by norm_num)
      (by rw [Int.floor_eq_iff] <;> norm_num) (by norm_num)]
  norm_num

theorem roundQ_eval_t2 :
    fsub 5 (5854679515581645 / 2 ^ 51) = 5404319552844595 / 2 ^ 51 := by
  rw [fsub, show (5 : ℚ) - 5854679515581645 / 2 ^ 51 =
      5404319552844595 / 2 ^ 51 from by norm_num,
    roundQ_pos (by norm_num),
    roundPos_eq_dn (5404319552844595 / 2 ^ 51) 1 5404319552844595
      (by norm_num) (by norm_num)
      (by rw [Int.floor_eq_iff] <;> norm_num) (by norm_num)]
  norm_num

theorem roundQ_eval_t3 :
    fdiv (5404319552844595 / 2 ^ 51) (3602879701896397 / 2 ^ 55) =
      6755399441055743 / 2 ^ 48 := by
  rw [fdiv, show (5404319552844595 / 2 ^ 51 : ℚ) / (3602879701896397 / 2 ^ 55) =
      86469112845513520 / 3602879701896397 from by norm_num,
    roundQ_pos (by norm_num),
    roundPos_eq_dn (86469112845513520 / 3602879701896397) 4 6755399441055743
      (by norm_num) (by norm_num)
      (by rw [Int.floor_eq_iff] <;> norm_num) (by norm_num)]
  norm_num

theorem nLargeFloat_scenario :
    nLargeFloat 5 (roundQ (1 / 100)) (roundQ (1 / 10)) 260 = 23 := by
  show pyInt (fdiv (fsub 5 (fmul ((260 : ℤ) : ℚ) (roundQ (1 / 100))))
    (roundQ (1 / 10))) = 23
  simp only [roundQ_eval_c001, roundQ_eval_c01, roundQ_eval_t1,
    roundQ_eval_t2, roundQ_eval_t3]
  exact pyInt_eval (by norm_num) (by norm_num) (by norm_num)

/-- C1: at the scenario (totalMass 5.0, smallMass 0.01, largeMass 0.1,
nSmall 260, inner 0.2, outer 4.0, alpha 1.5) the specification expects
`nLarge = floor((5.0 - 2.6)/0.1) = 24` and 284 bodies.  The exact
arithmetic of line 46 indeed yields 24 (second conjunct), but under the
IEEE-double semantics of the running code the expression evaluates to
23.999999999999996 and `int()` truncates it to 23 (first conjunct), so
the code produces 23 large bodies and 283 bodies in total — the code
deviates from its specified intent at this input. -/
theorem scenario_nLarge_float_vs_exact :
    nLargeFloat 5 (roundQ (1 / 100)) (roundQ (1 / 10)) 260 = 23 ∧
      nLargeC scenarioCfg = 24 :=
  ⟨nLargeFloat_scenario,
    pyInt_eval (by norm_num [scenarioCfg]) (by norm_num [scenarioCfg])
      (by norm_num [scenarioCfg])⟩

end DiskMaker
